import Mathlib

/-!
Verification of the document ingestion / retrieval pipeline of the
ask-gemini-docs repository.  Strings are modelled as `List Char`; the
JavaScript source operates on UTF-16 strings, but every operation the
claims touch (length, slice, trim, split, concatenation) acts
per-character, so `List Char` is a faithful shallow embedding.
-/

namespace AskGemini

/-- Characters matched by the JavaScript regex class `\s` (the source only
ever produces ASCII whitespace, which these cover). -/
def isWsChar (c : Char) : Bool :=
  c = ' ' || c = '\t' || c = '\n' || c = '\r' || c = '\x0b' || c = '\x0c'

/-- Scanner for `text.replace(/\s+/g, ' ')`: `prevWs` records whether the
previous character belonged to a whitespace run (whose single `' '` has
already been emitted). -/
def collapseWsGo (prevWs : Bool) : List Char → List Char
  | [] => []
  | c :: rest =>
    if isWsChar c then
      if prevWs then collapseWsGo true rest else ' ' :: collapseWsGo true rest
    else c :: collapseWsGo false rest

/-- `text.replace(/\s+/g, ' ')`: each maximal run of whitespace becomes a
single space (`process-document/index.ts`, line 16). -/
def collapseWs (l : List Char) : List Char := collapseWsGo false l

/-- Scanner for `text.replace(/\n\s*\n/g, '\n')`: a match is a `'\n'`,
greedy `\s*`, and a final `'\n'` — i.e. it extends to the last `'\n'` of
the whitespace run following the first one, and is replaced by a single
`'\n'`.  The state `some buf` means a `'\n'` has been seen (not yet
emitted) and `buf` is the non-`'\n'` whitespace consumed since the most
recent `'\n'`; each further `'\n'` restarts `buf` (the characters before
it fall inside the match and are dropped).  Whether one or more `'\n'`
were seen, the region is emitted as `'\n' ++ buf` on exit, which is both
the no-match and the replaced-match output. -/
def rblGo : Option (List Char) → List Char → List Char
  | none, [] => []
  | none, c :: rest =>
    if c = '\n' then rblGo (some []) rest else c :: rblGo none rest
  | some buf, [] => '\n' :: buf
  | some buf, c :: rest =>
    if c = '\n' then rblGo (some []) rest
    else if isWsChar c then rblGo (some (buf ++ [c])) rest
    else ('\n' :: buf) ++ c :: rblGo none rest

/-- `text.replace(/\n\s*\n/g, '\n')` (`process-document/index.ts`,
line 17).  After `collapseWs` the input contains no `'\n'`, so on the
pipeline's inputs this is the identity; it is nevertheless modelled from
the source. -/
def removeBlankLines (l : List Char) : List Char := rblGo none l

/-- Drop leading whitespace (left part of `String.prototype.trim`). -/
def ltrim (l : List Char) : List Char := l.dropWhile fun c => isWsChar c

/-- Drop trailing whitespace. -/
def rtrim (l : List Char) : List Char := (ltrim l.reverse).reverse

/-- `s.trim()`: drop whitespace from both ends. -/
def trim (l : List Char) : List Char := ltrim (rtrim l)

/-- Last `n` elements of a list (`[]`-padded never: clips at the length). -/
def takeRight (n : Nat) (l : List Char) : List Char := l.drop (l.length - n)

/-- JavaScript `s.slice(-n)` for a non-negative `n`: the last `n`
characters, EXCEPT that for `n = 0` the argument `-0 === 0` and the whole
string is returned. -/
def jsSliceNeg (l : List Char) (n : Nat) : List Char :=
  if n = 0 then l else takeRight n l

/-- Sentence-terminal characters of the split regex `[.!?]`. -/
def isTermChar (c : Char) : Bool := c = '.' || c = '!' || c = '?'

/-- Splitter for `cleanText.split(/(?<=[.!?])\s+/)`
(`process-document/index.ts`, line 25): a maximal whitespace run
immediately preceded by `.`, `!` or `?` separates fragments.  `acc` holds
the current fragment reversed; its head is the previously consumed
character (the lookbehind).  `skipWs` is set while consuming the
remainder of a separator's whitespace run. -/
def splitSentGo (acc : List Char) (skipWs : Bool) : List Char → List (List Char)
  | [] => [acc.reverse]
  | c :: rest =>
    if skipWs && isWsChar c then splitSentGo acc true rest
    else if isWsChar c && (match acc with | p :: _ => isTermChar p | [] => false) then
      acc.reverse :: splitSentGo [] true rest
    else splitSentGo (c :: acc) false rest

/-- `cleanText.split(/(?<=[.!?])\s+/).filter(s => s.trim().length > 0)`. -/
def splitSentences (l : List Char) : List (List Char) :=
  (splitSentGo [] false l).filter fun s => 0 < (trim s).length

/-- The cleaned text of `chunkText` (`process-document/index.ts`,
lines 15-18): collapse whitespace runs, remove blank lines, trim. -/
def cleanText (t : List Char) : List Char := trim (removeBlankLines (collapseWs t))

/-- One chunk of `chunkText`'s output: `{ content, startIndex, endIndex }`. -/
structure TChunk where
  content : List Char
  startIndex : Nat
  endIndex : Nat
deriving DecidableEq, Repr

/-- A chunk before the length filter, together with the ghost flag
`splitClosed`: `true` when the chunk was pushed by the size-triggered
split (line 37 of the source), `false` when pushed as the final chunk
after the loop (line 54).  The flag is a proof artefact only; projecting
it away yields exactly the chunk objects the source builds. -/
structure RawChunk where
  content : List Char
  startIndex : Nat
  endIndex : Nat
  splitClosed : Bool
deriving DecidableEq, Repr

/-- Projection dropping the ghost flag. -/
def RawChunk.toChunk (r : RawChunk) : TChunk := ⟨r.content, r.startIndex, r.endIndex⟩

/-- The sentence-accumulation loop of `chunkText`
(`process-document/index.ts`, lines 30-59).  `current` is
`currentChunk`, `start` is `currentStartIndex`.  Each sentence is trimmed
at the head of the iteration (line 31);
`potential = currentChunk + (currentChunk ? ' ' : '') + sentence`
(line 32).  On overflow with a non-empty current chunk the chunk is
closed, and the next one is seeded with `currentChunk.slice(-overlap)`
followed by a space and the overflowing sentence (lines 44-46);
`Math.max(0, endIndex - overlap)` is truncated `Nat` subtraction.
After the loop, a non-empty residue is pushed (lines 53-58). -/
def chunkLoop (maxSize overlap : Nat) (sents : List (List Char))
    (current : List Char) (start : Nat) : List RawChunk :=
  match sents with
  | [] =>
    if 0 < (trim current).length then
      [⟨trim current, start, start + current.length, false⟩]
    else []
  | s :: rest =>
    let sentence := trim s
    let potential := current ++ (if current.length ≠ 0 then [' '] else []) ++ sentence
    if potential.length > maxSize ∧ current.length ≠ 0 then
      let endIdx := start + current.length
      let overlapText := jsSliceNeg current overlap
      ⟨trim current, start, endIdx, true⟩ ::
        chunkLoop maxSize overlap rest (overlapText ++ [' '] ++ sentence) (endIdx - overlap)
    else
      chunkLoop maxSize overlap rest potential start

/-- The raw (pre-filter) chunk sequence built by the loop for a text that
did not take the single-chunk early return. -/
def chunkBody (t : List Char) (maxSize overlap : Nat) : List RawChunk :=
  chunkLoop maxSize overlap (splitSentences (cleanText t)) [] 0

/-- `chunkText(text, maxChunkSize, overlap)` of
`src/supabase/functions/process-document/index.ts` (lines 7-63): empty
input returns no chunks; a cleaned text that already fits within
`maxChunkSize` is returned as a single chunk (bypassing the length
filter); otherwise the sentence-accumulation loop runs and chunks with
content of 50 characters or fewer are filtered out (line 62). -/
def chunkText (t : List Char) (maxSize overlap : Nat) : List TChunk :=
  if t.length = 0 then []
  else if (cleanText t).length ≤ maxSize then
    [⟨cleanText t, 0, (cleanText t).length⟩]
  else
    ((chunkBody t maxSize overlap).filter fun c => 50 < c.content.length).map
      RawChunk.toChunk

/-! ## Shared string helpers for the serverless functions -/

/-- The apostrophe character (several source messages contain one). -/
def apos : Char := Char.ofNat 39

/-- `needle` occurs contiguously inside `hay`
(JavaScript `hay.includes(needle)`). -/
def containsSub (needle hay : List Char) : Bool :=
  match hay with
  | [] => needle.isEmpty
  | c :: rest => needle.isPrefixOf (c :: rest) || containsSub needle rest

/-- JavaScript `x || d` for an optional string `x`: `undefined` and the
empty string are falsy. -/
def jsOrDefault (o : Option (List Char)) (d : List Char) : List Char :=
  match o with
  | none => d
  | some t => if t.length = 0 then d else t

/-! ## Retry utility (`src/unnamed/part_006`, lines 11-45) -/

/-- The retryable classification of `retryWithBackoff` (lines 28-32):
an error is retryable iff its message contains `503`, `429`, `500`,
`overloaded` or `network`. -/
def isRetryable (msg : List Char) : Bool :=
  containsSub "503".data msg || containsSub "429".data msg ||
    containsSub "500".data msg || containsSub "overloaded".data msg ||
    containsSub "network".data msg

/-- The attempt loop of `retryWithBackoff`: `attempt` is the 0-indexed
loop counter, the extra `Nat` argument is `maxRetries - attempt`
(the loop runs `attempt = 0 .. maxRetries`).  The operation is an oracle
giving each attempt's outcome; errors are message strings.  The second
component of the result counts the attempts performed.  The backoff
delays (line 38) only pause execution; they are modelled separately by
`jsDelay`. -/
def retryGo (op : Nat → Except (List Char) α) (attempt : Nat) :
    Nat → Except (List Char) α × Nat
  | 0 =>
    match op attempt with
    | .ok v => (.ok v, attempt + 1)
    | .error e => (.error e, attempt + 1)
  | r + 1 =>
    match op attempt with
    | .ok v => (.ok v, attempt + 1)
    | .error e =>
      if isRetryable e then retryGo op (attempt + 1) r else (.error e, attempt + 1)

/-- `retryWithBackoff(operation, maxRetries)` (`src/unnamed/part_006`,
lines 11-45), with the number of attempts performed. -/
def retryWithBackoff (op : Nat → Except (List Char) α) (maxRetries : Nat) :
    Except (List Char) α × Nat :=
  retryGo op 0 maxRetries

/-- The delay computed before retrying attempt `attempt` (line 38):
`baseDelay * Math.pow(2, attempt) + Math.random() * 1000`, with
`r ∈ [0, 1)` standing for the value drawn by `Math.random()`. -/
def jsDelay (baseDelay : ℚ) (attempt : Nat) (r : ℚ) : ℚ :=
  baseDelay * 2 ^ attempt + r * 1000

/-- Modelled from the spec (section 4.4): delay for attempt `k` =
`baseDelay * 2^k + random_jitter`, jitter uniformly distributed up to one
full `baseDelay` unit, i.e. jitter `= r * baseDelay` with `r ∈ [0, 1)`. -/
def specDelay (baseDelay : ℚ) (attempt : Nat) (r : ℚ) : ℚ :=
  baseDelay * 2 ^ attempt + r * baseDelay

/-! ## Generation with failover (`src/unnamed/part_006`, lines 126-165) -/

/-- Environment of `generateAIResponse`: the configured API keys, and
oracles giving the net outcome of `callGeminiAPI` and
`callOpenAIFallback` (each of which already wraps its HTTP call in
`retryWithBackoff`). -/
structure GenEnv where
  geminiKey : Option (List Char)
  openaiKey : Option (List Char)
  geminiCall : Except (List Char) (List Char)
  openaiCall : Except (List Char) (List Char)

/-- The failover classification (line 137): the Gemini error message
contains `GEMINI_OVERLOADED` or `GEMINI_RATE_LIMITED` (which
`callGeminiAPI` produces exactly for HTTP 503 and 429, lines 63-68). -/
def overloadClass (e : List Char) : Bool :=
  containsSub "GEMINI_OVERLOADED".data e || containsSub "GEMINI_RATE_LIMITED".data e

/-- `generateAIResponse(prompt)` (`src/unnamed/part_006`, lines 126-165).
Returns the result `{ response, provider }` (or the propagated error)
together with the ordered list of providers attempted. -/
def generateAIResponse (env : GenEnv) :
    Except (List Char) (List Char × List Char) × List (List Char) :=
  match env.geminiKey with
  | some _ =>
    match env.geminiCall with
    | .ok r => (.ok (r, "Gemini".data), ["Gemini".data])
    | .error e =>
      if overloadClass e then
        match env.openaiKey with
        | some _ =>
          match env.openaiCall with
          | .ok r => (.ok (r, "OpenAI (fallback)".data), ["Gemini".data, "OpenAI".data])
          | .error _ => (.error e, ["Gemini".data, "OpenAI".data])
        | none => (.error e, ["Gemini".data])
      else (.error e, ["Gemini".data])
  | none =>
    match env.openaiKey with
    | some _ =>
      match env.openaiCall with
      | .ok r => (.ok (r, "OpenAI".data), ["OpenAI".data])
      | .error e => (.error e, ["OpenAI".data])
    | none => (.error "No AI API keys configured".data, [])

/-! ## The chat function (`src/unnamed/part_006`, lines 167-389) -/

/-- A chunk row as returned by the `match_documents` RPC or the fallback
query: content, page number, and the (optional) joined document title. -/
structure RChunk where
  content : List Char
  page_number : Int
  docTitle : Option (List Char)
deriving DecidableEq, Repr

/-- A source citation (lines 270-274). -/
structure Source where
  document_title : List Char
  chunk_content : List Char
  page_number : Int
deriving DecidableEq, Repr

/-- A row inserted into `chat_messages`. -/
structure ChatMsg where
  session_id : List Char
  role : List Char
  content : List Char
  sources : List Source
deriving DecidableEq, Repr

/-- The parsed chat request body (line 173). -/
structure ChatReq where
  sessionId : List Char
  message : List Char
  userId : List Char
deriving DecidableEq, Repr

/-- Environment of the chat `serve` handler: the parsed request, the
configured keys, and oracles for each external call.  `embedOracle n` is
the outcome of the `n`-th attempt of the embedding fetch (lines 191-216);
`searchResult` is the outcome of the `match_documents` RPC (line 222);
`fallbackResult` that of the fallback recent-chunks query (line 235). -/
structure ChatEnv where
  parseResult : Except (List Char) ChatReq
  geminiKey : Option (List Char)
  openaiKey : Option (List Char)
  embedOracle : Nat → Except (List Char) (List ℚ)
  searchResult : Except (List Char) (List RChunk)
  fallbackResult : Except (List Char) (List RChunk)
  geminiCall : Except (List Char) (List Char)
  openaiCall : Except (List Char) (List Char)

/-- Observable outcome of one chat request: the HTTP status, the JSON
fields of the response, and the list of `chat_messages` rows whose
insertion the handler attempted (its side effects). -/
structure ChatOut where
  status : Nat
  response : Option (List Char)
  sources : List Source
  provider : Option (List Char)
  errorTag : Option (List Char)
  errMsg : Option (List Char)
  inserted : List ChatMsg
deriving DecidableEq, Repr

/-- The fixed response for a query with no matching chunks (line 261). -/
def noDocsMsg : List Char :=
  "I couldn".data ++ [apos] ++
    "t find relevant documents for your query. Please check if the documents are correctly processed.".data

/-- The general response when the built context is empty (line 280). -/
def generalMsg : List Char :=
  "I don".data ++ [apos] ++
    "t have any document content to reference. Please upload some documents first, and make sure they are properly processed.".data

/-- The user-facing message when all AI providers failed (lines 321-329),
classified by the error message. -/
def techDiffMsg (e : List Char) : List Char :=
  "I".data ++ [apos] ++ "m experiencing technical difficulties right now. ".data ++
    (if containsSub "overloaded".data e || containsSub "503".data e then
      "The AI service is currently overloaded. Please try again in a few moments.".data
    else if containsSub "rate".data e || containsSub "429".data e then
      "Too many requests are being processed. Please wait a moment and try again.".data
    else
      "Please try again later or contact support if the issue persists.".data)

/-- The chunks used for context building (lines 222-255): the RPC result,
or on a search error the fallback query result, or `[]` if that also
errors. -/
def retrievedChunks (env : ChatEnv) : List RChunk :=
  match env.searchResult with
  | .ok rs => rs
  | .error _ =>
    match env.fallbackResult with
    | .ok fc => fc
    | .error _ => []

/-- One source citation (lines 270-274):
`{ document_title: chunk.documents?.title || 'Document',
   chunk_content: chunk.content.substring(0, 100) + '...', page_number }`. -/
def mkSource (c : RChunk) : Source :=
  ⟨jsOrDefault c.docTitle "Document".data, c.content.take 100 ++ "...".data, c.page_number⟩

/-- The generation prompt (lines 301-308). -/
def mkPrompt (context message : List Char) : List Char :=
  "Based on the following context from documents, answer the user".data ++ [apos] ++
    "s question. If the answer cannot be found in the context, say so clearly.\n\nContext:\n".data ++
    context ++ "\n\nUser Question: ".data ++ message ++ "\n\nAnswer:".data

/-- A 500 error response of the chat handler (lines 381-388): no
`chat_messages` insertion happens on this path. -/
def chatErr (e : List Char) : ChatOut := ⟨500, none, [], none, none, some e, []⟩

/-- The chat `serve` handler (`src/unnamed/part_006`, lines 167-389). -/
def chatServe (env : ChatEnv) : ChatOut :=
  match env.parseResult with
  | .error e => chatErr e
  | .ok req =>
    match env.geminiKey with
    | none => chatErr "Google Gemini API key not configured".data
    | some _ =>
      match (retryWithBackoff env.embedOracle 3).1 with
      | .error e => chatErr e
      | .ok _emb =>
        let chunks := retrievedChunks env
        if chunks.length = 0 then
          ⟨200, some noDocsMsg, [], none, none, none, []⟩
        else
          let context := List.intercalate "\n\n".data (chunks.map (·.content))
          let sources := chunks.map mkSource
          if context.length = 0 then
            ⟨200, some generalMsg, [], none, none, none,
              [⟨req.sessionId, "assistant".data, generalMsg, []⟩]⟩
          else
            match (generateAIResponse
                ⟨env.geminiKey, env.openaiKey, env.geminiCall, env.openaiCall⟩).1 with
            | .ok (text, prov) =>
              ⟨200, some text, sources, some prov, none, none,
                [⟨req.sessionId, "assistant".data, text, sources⟩]⟩
            | .error e =>
              let um := techDiffMsg e
              ⟨200, some um, [], none, some "AI_SERVICE_UNAVAILABLE".data, none,
                [⟨req.sessionId, "assistant".data, um, []⟩]⟩

/-! ## `match_documents`
(`src/supabase/migrations/20250806124120_….sql`, lines 2-43) -/

/-- A row of the `documents` table (the columns `match_documents`
touches). -/
structure DocRow where
  id : Nat
  user_id : Nat
  name : List Char
  status : List Char
deriving DecidableEq, Repr

/-- A row of the `document_chunks` table.  `dist` models the cosine
distance `dc.embedding <=> query_embedding` of this row's embedding to
the query embedding of the call under consideration; quantifying over all
`dist` assignments subsumes quantifying over all query embeddings and
stored vectors. -/
structure ChunkRow where
  id : Nat
  document_id : Nat
  user_id : Nat
  content : List Char
  page_number : Int
  chunk_index : Int
  dist : ℚ
deriving DecidableEq, Repr

/-- The database state the function reads. -/
structure RagDB where
  docs : List DocRow
  chunks : List ChunkRow

/-- `FROM document_chunks dc JOIN documents d ON dc.document_id = d.id`. -/
def sqlJoin (db : RagDB) : List (ChunkRow × DocRow) :=
  db.chunks.foldr
    (fun c acc =>
      ((db.docs.filter fun d => decide (c.document_id = d.id)).map fun d => (c, d)) ++ acc)
    []

/-- The document status required by the `WHERE` clause. -/
def completedStatus : List Char := "completed".data

/-- The `WHERE` clause (lines 37-40): the caller's `user_id` is `NULL` or
matches the document's owner, the document is `completed`, and
`1 - (dc.embedding <=> query_embedding) > match_threshold`. -/
def matchCond (uid : Option Nat) (threshold : ℚ) (p : ChunkRow × DocRow) : Bool :=
  (match uid with
   | none => true
   | some u => decide (p.2.user_id = u)) &&
    decide (p.2.status = completedStatus) && decide (threshold < 1 - p.1.dist)

/-- `ORDER BY dc.embedding <=> query_embedding` (ascending distance). -/
def distLE (a b : ChunkRow × DocRow) : Prop := a.1.dist ≤ b.1.dist

instance : DecidableRel distLE := fun a b => inferInstanceAs (Decidable (a.1.dist ≤ b.1.dist))

instance : IsTotal (ChunkRow × DocRow) distLE := ⟨fun a b => le_total a.1.dist b.1.dist⟩

instance : IsTrans (ChunkRow × DocRow) distLE := ⟨fun _ _ _ h h' => le_trans h h'⟩

/-- The joined rows that `match_documents` returns, before projection to
the output columns: filter, order by distance, `LIMIT match_count`. -/
def matchPairs (db : RagDB) (threshold : ℚ) (limit : Nat) (uid : Option Nat) :
    List (ChunkRow × DocRow) :=
  (((sqlJoin db).filter (matchCond uid threshold)).insertionSort distLE).take limit

/-- An output row of `match_documents` (its `RETURNS TABLE`), including
the `documents` JSON object built from the joined document. -/
structure MatchRow where
  id : Nat
  document_id : Nat
  content : List Char
  page_number : Int
  chunk_index : Int
  similarity : ℚ
  doc_id : Nat
  doc_name : List Char
  doc_user_id : Nat
deriving DecidableEq, Repr

/-- The `SELECT` projection (lines 23-34); `similarity = 1 - distance`. -/
def toMatchRow (p : ChunkRow × DocRow) : MatchRow :=
  ⟨p.1.id, p.1.document_id, p.1.content, p.1.page_number, p.1.chunk_index,
    1 - p.1.dist, p.2.id, p.2.name, p.2.user_id⟩

/-- `public.match_documents(query_embedding, match_threshold, match_count,
user_id)` (migration lines 2-43). -/
def match_documents (db : RagDB) (threshold : ℚ) (limit : Nat) (uid : Option Nat) :
    List MatchRow :=
  (matchPairs db threshold limit uid).map toMatchRow

/-! ## The ingestion function
(`src/supabase/functions/process-document/index.ts`, lines 70-247) -/

/-- The `documents` row fetched at the start of processing (the fields the
handler uses). -/
structure Document where
  id : List Char
  user_id : Nat
  file_path : List Char
deriving DecidableEq, Repr

/-- Outcome of one embedding HTTP fetch: the response status flag and the
optional `embedding.values` payload. -/
structure EmbedResp where
  ok : Bool
  values : Option (List ℚ)
deriving DecidableEq, Repr

/-- Environment of the `process-document` handler: the parsed request
body (`documentId`) and oracles for each external call, indexed per chunk
where applicable. -/
structure ProcEnv where
  parseResult : Except (List Char) (List Char)
  docFetch : Except (List Char) Document
  download : Except (List Char) Unit
  extractResult : Except (List Char) (Nat × List Char)
  geminiKey : Option (List Char)
  embedFetch : Nat → Except (List Char) EmbedResp
  insertChunk : Nat → Except (List Char) Unit
  updateResult : Except (List Char) Unit

/-- An update applied to the `documents` row.  The source's catch block
would apply `.update({ status: 'failed' })` (line 233, with no error
message), but it first re-reads the already-consumed request body
(line 230), which always throws, so a `failed` update is never applied. -/
inductive DocUpdate where
  | completed (totalChunks totalPages : Nat)
  | failed
deriving DecidableEq, Repr

/-- `Math.ceil((startIndex / text.length) * totalPages) || 1`
(line 124); `|| 1` turns a falsy `0` into `1`. -/
def jsCeilPage (startIndex textLen totalPages : Nat) : Int :=
  let c : Int := Int.ceil ((startIndex : ℚ) / (textLen : ℚ) * (totalPages : ℚ))
  if c = 0 then 1 else c

/-- A chunk prepared for processing (lines 122-128). -/
structure ProcChunk where
  content : List Char
  page : Int
  index : Nat
  startIndex : Nat
  endIndex : Nat
deriving DecidableEq, Repr

/-- `textChunks.map((chunkData, index) => …)` (lines 122-128). -/
def mkProcChunks (text : List Char) (totalPages : Nat) : List ProcChunk :=
  let tcs := chunkText text 1000 200
  ((List.range tcs.length).zip tcs).map fun ic =>
    ⟨ic.2.content, jsCeilPage ic.2.startIndex text.length totalPages, ic.1,
      ic.2.startIndex, ic.2.endIndex⟩

/-- `chunk.content.split(' ').length` (line 175): JavaScript splits at
every single space, so the count is (number of spaces) + 1. -/
def jsTokenCount (content : List Char) : Nat := content.count ' ' + 1

/-- A row inserted into `document_chunks` (lines 167-178). -/
structure StoredChunk where
  document_id : List Char
  chunk_index : Nat
  content : List Char
  page_number : Int
  embedding : List ℚ
  token_count : Nat
  user_id : Nat
deriving DecidableEq, Repr

/-- One iteration of the per-chunk loop (lines 136-190): an embedding
fetch failure, a missing payload, or an insert error each skip the chunk
(`continue`, with the thrown `insertError` caught by the per-chunk
`catch`); only a fully successful iteration stores a row. -/
def storedChunk (env : ProcEnv) (docId : List Char) (uid : Nat) (pc : ProcChunk) :
    Option StoredChunk :=
  match env.embedFetch pc.index with
  | .error _ => none
  | .ok resp =>
    if resp.ok = false then none
    else
      match resp.values with
      | none => none
      | some emb =>
        match env.insertChunk pc.index with
        | .error _ => none
        | .ok _ => some ⟨docId, pc.index, pc.content, pc.page, emb, jsTokenCount pc.content, uid⟩

/-- Observable outcome of one `process-document` request: the HTTP status,
the JSON response fields, the `documents` updates applied, and the chunk
rows stored. -/
structure ProcOut where
  status : Nat
  success : Bool
  chunksProcessed : Option Nat
  totalPages : Option Nat
  errMsg : Option (List Char)
  updates : List DocUpdate
  insertedChunks : List StoredChunk
deriving DecidableEq, Repr

/-- The extraction guard message (line 114). -/
def noTextMsg : List Char :=
  "No readable text found in PDF. The PDF may be image-based or corrupted.".data

/-- The catch block of the handler (lines 220-246): it responds 500 with
the error message; its attempt to mark the document `failed` re-reads the
consumed request body and therefore never applies an update. -/
def procFail (e : List Char) (ins : List StoredChunk) : ProcOut :=
  ⟨500, false, none, none, some e, [], ins⟩

/-- The `process-document` `serve` handler
(`src/supabase/functions/process-document/index.ts`, lines 70-247). -/
def processDocumentServe (env : ProcEnv) : ProcOut :=
  match env.parseResult with
  | .error e => procFail e []
  | .ok docId =>
    match env.docFetch with
    | .error e => procFail e []
    | .ok doc =>
      match env.download with
      | .error e => procFail e []
      | .ok _ =>
        match env.extractResult with
        | .error e => procFail e []
        | .ok (totalPages, text) =>
          if text.length < 10 then procFail noTextMsg []
          else
            let pchunks := mkProcChunks text totalPages
            match env.geminiKey with
            | none => procFail "Google Gemini API key not configured".data []
            | some _ =>
              let stored := pchunks.filterMap (storedChunk env docId doc.user_id)
              match env.updateResult with
              | .error e => procFail e stored
              | .ok _ =>
                ⟨200, true, some pchunks.length, some totalPages, none,
                  [.completed pchunks.length totalPages], stored⟩

/-! ## Concrete instances used by witnesses and counterexamples -/

/-- Text whose chunking exhibits an overlap window that starts with a
space: 50-char sentence, 9-char sentence, 60-char sentence. -/
def Tce : List Char :=
  List.replicate 49 'a' ++ ['.', ' '] ++ List.replicate 8 'b' ++ ['.', ' '] ++
    List.replicate 59 'c' ++ ['.']

/-- A chat environment whose retrieval returns zero chunks. -/
def chatEnvNoChunks : ChatEnv :=
  ⟨.ok ⟨"s1".data, "question".data, "u1".data⟩, some "key".data, none,
    fun _ => .ok [1], .ok [], .ok [], .ok "resp".data, .ok "resp".data⟩

/-- A document row used by the ingestion examples. -/
def docW : Document := ⟨"d1".data, 7, "u1/d1.pdf".data⟩

/-- An ingestion environment in which everything succeeds; the extracted
text is 11 characters, producing a single chunk. -/
def procEnvSucc : ProcEnv :=
  ⟨.ok "d1".data, .ok docW, .ok (), .ok (3, "Hello world".data), some "key".data,
    fun _ => .ok ⟨true, some [1]⟩, fun _ => .ok (), .ok ()⟩

/-- An ingestion environment in which text extraction throws. -/
def procEnvFail : ProcEnv :=
  ⟨.ok "d1".data, .ok docW, .ok (), .error "boom".data, some "key".data,
    fun _ => .ok ⟨true, some [1]⟩, fun _ => .ok (), .ok ()⟩

/-- An ingestion environment in which the (single) chunk's embedding
fetch throws, and everything else succeeds. -/
def procEnvChunkFail : ProcEnv :=
  ⟨.ok "d1".data, .ok docW, .ok (), .ok (3, "Hello world".data), some "key".data,
    fun _ => .error "network error".data, fun _ => .ok (), .ok ()⟩

/-- A one-document, one-chunk database for the retrieval witness. -/
def dbW : RagDB :=
  ⟨[⟨1, 7, "doc".data, completedStatus⟩], [⟨10, 1, 7, "hello there".data, 1, 0, 0⟩]⟩

/-- An embedding-attempt oracle that fails with HTTP 503 twice and then
succeeds. -/
def op503 : Nat → Except (List Char) (List ℚ) :=
  fun n => if n < 2 then .error "Embedding API failed: 503 - overloaded".data else .ok [1]

/-- A chat environment whose embedding fetch returns 503 twice and then
succeeds. -/
def chatEnv503 : ChatEnv :=
  ⟨.ok ⟨"s1".data, "question".data, "u1".data⟩, some "key".data, none,
    op503, .ok [], .ok [], .ok "resp".data, .ok "resp".data⟩

/-- A generation environment: Gemini configured but overloaded, OpenAI
configured and succeeding. -/
def genEnvFallback : GenEnv :=
  ⟨some "gk".data, some "ok".data,
    .error "GEMINI_OVERLOADED: upstream 503".data, .ok "fallback answer".data⟩

/-! ## Claim C9 (corrected): backoff delay -/

/-- C9, counterexample: the claim says the jitter is drawn from zero up to
one full `baseDelay` unit, i.e. the delay is `specDelay`.  At
`baseDelay = 2000`, attempt `0`, `Math.random() = 1/2`, the source
computes `2000 + 500 = 2500` while the claimed formula gives
`2000 + 1000 = 3000`. -/
theorem delay_jitter_counterexample : jsDelay 2000 0 (1 / 2) ≠ specDelay 2000 0 (1 / 2) := by
  norm_num [jsDelay, specDelay]

/-- C9, amended: the delay before retry `k` is
`baseDelay * 2^k + Math.random() * 1000` — the jitter is uniform up to
1000 ms (one unit of the default base delay), independent of `baseDelay`;
it agrees with the spec's formula exactly when `baseDelay = 1000`. -/
theorem delay_formula (baseDelay : ℚ) (k : Nat) (r : ℚ) :
    jsDelay baseDelay k r = baseDelay * 2 ^ k + 1000 * r ∧
      (baseDelay = 1000 → jsDelay baseDelay k r = specDelay baseDelay k r) := by
  constructor
  · simp [jsDelay]; ring
  · intro h; subst h; simp [jsDelay, specDelay]

/-- C9 witness: at the default base delay of 1000 the two formulas agree. -/
theorem delay_formula_witness : jsDelay 1000 2 (1 / 3) = specDelay 1000 2 (1 / 3) :=
  (delay_formula 1000 2 (1 / 3)).2 rfl

/-! ## Claim C7 (confirmed): non-retryable errors surface immediately -/

/-- C7: if the first attempt fails with an error that the source does not
classify as retryable (its message contains none of `503`, `429`, `500`,
`overloaded`, `network`), `retryWithBackoff` surfaces exactly that error
after a single attempt, for every retry budget. -/
theorem retry_nonretryable_immediate {α : Type} (op : Nat → Except (List Char) α)
    (maxRetries : Nat) (e : List Char) (h0 : op 0 = .error e)
    (hnr : isRetryable e = false) :
    retryWithBackoff op maxRetries = (.error e, 1) := by
  cases maxRetries with
  | zero => simp [retryWithBackoff, retryGo, h0]
  | succ r => simp [retryWithBackoff, retryGo, h0, hnr]

/-- C7 witness: a permanent auth failure (HTTP 401) on attempt one is
surfaced with no further attempts. -/
theorem retry_nonretryable_witness :
    retryWithBackoff (fun _ => (.error "Gemini API failed: 401 - bad key".data :
      Except (List Char) (List ℚ))) 3 = (.error "Gemini API failed: 401 - bad key".data, 1) :=
  retry_nonretryable_immediate _ 3 _ rfl (by decide)

/-! ## Claim C8 (confirmed): retryable failures, success on third attempt -/

/-- C8: with a retry budget of 3 — (i) retryable failures on attempts one
and two followed by success on attempt three yield that success after
exactly three attempts; (ii) an embedding call inside the chat handler
whose fetch fails retryably twice and then succeeds behaves exactly as an
immediately-successful one — no provider failover of any kind occurs;
(iii) when every attempt fails, the error of the last attempt is re-thrown
unchanged after four attempts (budget 3 = 3 retries after the first). -/
theorem retry_third_attempt_success :
    (∀ (α : Type) (op : Nat → Except (List Char) α) (v : α) (e0 e1 : List Char),
      op 0 = .error e0 → isRetryable e0 = true →
      op 1 = .error e1 → isRetryable e1 = true →
      op 2 = .ok v → retryWithBackoff op 3 = (.ok v, 3)) ∧
    (∀ (env : ChatEnv) (emb : List ℚ) (e0 e1 : List Char),
      env.embedOracle 0 = .error e0 → isRetryable e0 = true →
      env.embedOracle 1 = .error e1 → isRetryable e1 = true →
      env.embedOracle 2 = .ok emb →
      chatServe env = chatServe { env with embedOracle := fun _ => .ok emb }) ∧
    (∀ (α : Type) (op : Nat → Except (List Char) α) (e0 e1 e2 e3 : List Char),
      op 0 = .error e0 → isRetryable e0 = true →
      op 1 = .error e1 → isRetryable e1 = true →
      op 2 = .error e2 → isRetryable e2 = true →
      op 3 = .error e3 → retryWithBackoff op 3 = (.error e3, 4)) := by
  refine ⟨?_, ?_, ?_⟩
  · intro α op v e0 e1 h0 hr0 h1 hr1 h2
    simp [retryWithBackoff, retryGo, h0, hr0, h1, hr1, h2]
  · intro env emb e0 e1 h0 hr0 h1 hr1 h2
    have hres : (retryWithBackoff env.embedOracle 3).1 = .ok emb := by
      simp [retryWithBackoff, retryGo, h0, hr0, h1, hr1, h2]
    have hres' :
        (retryWithBackoff (fun _ => (.ok emb : Except (List Char) (List ℚ))) 3).1 = .ok emb := by
      simp [retryWithBackoff, retryGo]
    simp [chatServe, retrievedChunks, hres, hres']
  · intro α op e0 e1 e2 e3 h0 hr0 h1 hr1 h2 hr2 h3
    simp [retryWithBackoff, retryGo, h0, hr0, h1, hr1, h2, hr2, h3]

/-- C8 witness: the concrete 503-twice-then-success oracle, both bare and
inside the chat handler. -/
theorem retry_third_attempt_witness :
    retryWithBackoff op503 3 = (.ok [1], 3) ∧
      chatServe chatEnv503 = chatServe { chatEnv503 with embedOracle := fun _ => .ok [1] } :=
  ⟨retry_third_attempt_success.1 _ op503 [1] _ _ rfl (by decide) rfl (by decide) rfl,
    retry_third_attempt_success.2.1 chatEnv503 [1] _ _ rfl (by decide) rfl (by decide) rfl⟩

/-! ## Claim C6 (confirmed): generation failover -/

/-- C6: when the primary (Gemini) key is configured — (i) the primary
provider is attempted first; (ii) if the primary fails with an error
classified as overloaded/rate-limited and the secondary (OpenAI) key is
configured and the secondary succeeds, the response comes from the
secondary and the provider is marked `OpenAI (fallback)`; (iii) any
primary failure of another class is propagated to the caller unchanged. -/
theorem generate_failover (env : GenEnv) (k : List Char) (hk : env.geminiKey = some k) :
    (generateAIResponse env).2.head? = some "Gemini".data ∧
    (∀ (e t k' : List Char), env.geminiCall = .error e → overloadClass e = true →
      env.openaiKey = some k' → env.openaiCall = .ok t →
      (generateAIResponse env).1 = .ok (t, "OpenAI (fallback)".data)) ∧
    (∀ e : List Char, env.geminiCall = .error e → overloadClass e = false →
      (generateAIResponse env).1 = .error e) := by
  refine ⟨?_, ?_, ?_⟩
  · cases hg : env.geminiCall with
    | ok r => simp [generateAIResponse, hk, hg]
    | error e =>
      by_cases ho : overloadClass e = true
      · cases hok : env.openaiKey with
        | none => simp [generateAIResponse, hk, hg, ho, hok]
        | some k' =>
          cases hoc : env.openaiCall with
          | ok r => simp [generateAIResponse, hk, hg, ho, hok, hoc]
          | error e' => simp [generateAIResponse, hk, hg, ho, hok, hoc]
      · simp [generateAIResponse, hk, hg, Bool.eq_false_iff.mpr ho]
  · intro e t k' hg ho hok hoc
    simp [generateAIResponse, hk, hg, ho, hok, hoc]
  · intro e hg ho
    simp [generateAIResponse, hk, hg, ho]

/-- C6 witness: a concrete environment in which Gemini reports
`GEMINI_OVERLOADED` and OpenAI is configured and succeeds. -/
theorem generate_failover_witness :
    (generateAIResponse genEnvFallback).2.head? = some "Gemini".data ∧
      (generateAIResponse genEnvFallback).1 = .ok ("fallback answer".data, "OpenAI (fallback)".data) :=
  ⟨(generate_failover genEnvFallback "gk".data rfl).1,
    (generate_failover genEnvFallback "gk".data rfl).2.1 _ _ "ok".data rfl (by decide) rfl rfl⟩

/-! ## Claim C1 (corrected): chat with zero retrieved chunks -/

/-- C1, counterexample: the claim says that on the zero-chunk path an
assistant message is still recorded.  In this concrete environment the
retrieval yields zero chunks and the handler returns the fixed
no-relevant-documents response with empty sources and status 200 — but it
returns before any `chat_messages` insertion, so no assistant message is
recorded. -/
theorem chat_no_chunks_counterexample :
    retrievedChunks chatEnvNoChunks = [] ∧
    (chatServe chatEnvNoChunks).status = 200 ∧
    (chatServe chatEnvNoChunks).response = some noDocsMsg ∧
    (chatServe chatEnvNoChunks).sources = [] ∧
    (chatServe chatEnvNoChunks).inserted = [] := by
  refine ⟨rfl, rfl, ?_, rfl, rfl⟩
  decide

/-- C1, amended: whenever the request parses, the Gemini key is
configured, the query embedding succeeds and retrieval yields zero
chunks, the chat handler returns the fixed no-relevant-documents response
with an empty sources list and status 200 (no exception), and records NO
assistant message — the conversation-log side effect happens only on the
no-context and provider-failure degradation paths, not on this one. -/
theorem chat_no_chunks (env : ChatEnv) (req : ChatReq) (k : List Char) (emb : List ℚ)
    (hp : env.parseResult = .ok req) (hk : env.geminiKey = some k)
    (he : (retryWithBackoff env.embedOracle 3).1 = .ok emb)
    (hc : retrievedChunks env = []) :
    chatServe env = ⟨200, some noDocsMsg, [], none, none, none, []⟩ := by
  simp [chatServe, hp, hk, he, hc]

/-- C1 witness: the amended theorem applied to the concrete zero-chunk
environment. -/
theorem chat_no_chunks_witness :
    chatServe chatEnvNoChunks = ⟨200, some noDocsMsg, [], none, none, none, []⟩ :=
  chat_no_chunks chatEnvNoChunks ⟨"s1".data, "question".data, "u1".data⟩ "key".data [1]
    rfl rfl rfl rfl

/-! ## Claim C2 (corrected): document status updates -/

/-- C2, counterexample: the claim says that on any failure the document
status becomes `failed` with an error message recorded on the document.
In this concrete environment extraction throws, the handler responds 500 —
and applies NO update at all: the catch block's `status: 'failed'` update
(which carries no error message in the first place) re-reads the consumed
request body and never executes. -/
theorem process_status_counterexample :
    procEnvFail.extractResult = .error "boom".data ∧
    (processDocumentServe procEnvFail).status = 500 ∧
    (processDocumentServe procEnvFail).errMsg = some "boom".data ∧
    (processDocumentServe procEnvFail).updates = [] := by
  refine ⟨rfl, rfl, rfl, rfl⟩

/-- C2, amended: on success the document status is updated to `completed`
with the final page and chunk counts; on a failure (such as an extraction
error) the handler returns an error payload, and its attempt to mark the
document `failed` — which would carry no error message — aborts because
the request body is re-read, so no status update is applied. -/
theorem process_status_updates :
    (∀ (env : ProcEnv) (docId : List Char) (doc : Document) (pages : Nat)
        (text k : List Char),
      env.parseResult = .ok docId → env.docFetch = .ok doc → env.download = .ok () →
      env.extractResult = .ok (pages, text) → ¬ text.length < 10 →
      env.geminiKey = some k → env.updateResult = .ok () →
      (processDocumentServe env).status = 200 ∧
        (processDocumentServe env).chunksProcessed = some (chunkText text 1000 200).length ∧
        (processDocumentServe env).totalPages = some pages ∧
        (processDocumentServe env).updates =
          [.completed (chunkText text 1000 200).length pages]) ∧
    (∀ (env : ProcEnv) (docId : List Char) (doc : Document) (e : List Char),
      env.parseResult = .ok docId → env.docFetch = .ok doc → env.download = .ok () →
      env.extractResult = .error e →
      (processDocumentServe env).status = 500 ∧
        (processDocumentServe env).errMsg = some e ∧
        (processDocumentServe env).updates = []) := by
  constructor
  · intro env docId doc pages text k hp hd hw hx hlen hk hu
    have hlen' : (mkProcChunks text pages).length = (chunkText text 1000 200).length := by
      simp [mkProcChunks]
    simp [processDocumentServe, hp, hd, hw, hx, hlen, hk, hu, procFail, hlen']
  · intro env docId doc e hp hd hw hx
    simp [processDocumentServe, hp, hd, hw, hx, procFail]

/-- C2 witness: the success branch applied to a concrete all-success
environment, and the failure branch applied to the extraction-failure
environment. -/
theorem process_status_witness :
    ((processDocumentServe procEnvSucc).status = 200 ∧
      (processDocumentServe procEnvSucc).chunksProcessed =
        some (chunkText "Hello world".data 1000 200).length ∧
      (processDocumentServe procEnvSucc).totalPages = some 3 ∧
      (processDocumentServe procEnvSucc).updates =
        [.completed (chunkText "Hello world".data 1000 200).length 3]) ∧
    ((processDocumentServe procEnvFail).status = 500 ∧
      (processDocumentServe procEnvFail).errMsg = some "boom".data ∧
      (processDocumentServe procEnvFail).updates = []) :=
  ⟨process_status_updates.1 procEnvSucc "d1".data docW 3 "Hello world".data "key".data
      rfl rfl rfl rfl (by decide) rfl rfl,
    process_status_updates.2 procEnvFail "d1".data docW "boom".data rfl rfl rfl rfl⟩

/-! ## Claim C10 (confirmed): chunk counts count attempted chunks -/

theorem length_filterMap_lt_of_mem_none {α β : Type} (f : α → Option β) {l : List α}
    {a : α} (ha : a ∈ l) (hf : f a = none) : (l.filterMap f).length < l.length := by
  induction l with
  | nil => cases ha
  | cons b l ih =>
    rcases List.mem_cons.mp ha with rfl | ha'
    · rw [List.filterMap_cons, hf]
      exact Nat.lt_succ_of_le (List.length_filterMap_le f l)
    · rw [List.filterMap_cons]
      cases hb : f b with
      | none => exact Nat.lt_succ_of_lt (ih ha')
      | some c => exact Nat.succ_lt_succ (ih ha')

theorem mkProcChunks_index_mem (text : List Char) (pages i : Nat)
    (h : i < (chunkText text 1000 200).length) :
    ∃ pc ∈ mkProcChunks text pages, pc.index = i := by
  have hlen : i < (mkProcChunks text pages).length := by simpa [mkProcChunks] using h
  refine ⟨(mkProcChunks text pages)[i], List.getElem_mem hlen, ?_⟩
  simp [mkProcChunks]

/-- C10: when the embedding fetch for some produced chunk fails (so that
chunk is skipped and never stored), the handler still reports success,
returns `chunksProcessed` equal to the total number of chunks the chunker
produced, and records that same number as `total_chunks` with status
`completed` — while the number of chunk rows actually stored is strictly
smaller.  Reported and stored counts count attempted chunks, not
successfully persisted ones. -/
theorem process_counts_attempted (env : ProcEnv) (docId : List Char) (doc : Document)
    (pages : Nat) (text k m : List Char) (i : Nat)
    (hp : env.parseResult = .ok docId) (hd : env.docFetch = .ok doc)
    (hw : env.download = .ok ()) (hx : env.extractResult = .ok (pages, text))
    (hlen : ¬ text.length < 10) (hk : env.geminiKey = some k)
    (hu : env.updateResult = .ok ()) (hi : i < (chunkText text 1000 200).length)
    (hm : env.embedFetch i = .error m) :
    (processDocumentServe env).status = 200 ∧
      (processDocumentServe env).chunksProcessed = some (chunkText text 1000 200).length ∧
      (processDocumentServe env).updates =
        [.completed (chunkText text 1000 200).length pages] ∧
      (processDocumentServe env).insertedChunks.length < (chunkText text 1000 200).length := by
  have hout :
      processDocumentServe env =
        ⟨200, true, some (mkProcChunks text pages).length, some pages, none,
          [.completed (mkProcChunks text pages).length pages],
          (mkProcChunks text pages).filterMap (storedChunk env docId doc.user_id)⟩ := by
    simp [processDocumentServe, hp, hd, hw, hx, hlen, hk, hu]
  have hN : (mkProcChunks text pages).length = (chunkText text 1000 200).length := by
    simp [mkProcChunks]
  obtain ⟨pc, hpc, hidx⟩ := mkProcChunks_index_mem text pages i hi
  have hnone : storedChunk env docId doc.user_id pc = none := by
    rw [storedChunk, hidx, hm]
  refine ⟨by rw [hout], by rw [hout]; simp [hN], by rw [hout]; simp [hN], ?_⟩
  rw [hout]
  calc ((mkProcChunks text pages).filterMap (storedChunk env docId doc.user_id)).length
      < (mkProcChunks text pages).length :=
        length_filterMap_lt_of_mem_none _ hpc hnone
    _ = (chunkText text 1000 200).length := hN

/-- C10 witness: a concrete environment whose single chunk's embedding
fetch fails; the handler reports 1 chunk processed and `completed` with
`total_chunks = 1` while 0 chunks were stored. -/
theorem process_counts_attempted_witness :
    (processDocumentServe procEnvChunkFail).status = 200 ∧
      (processDocumentServe procEnvChunkFail).chunksProcessed =
        some (chunkText "Hello world".data 1000 200).length ∧
      (processDocumentServe procEnvChunkFail).updates =
        [.completed (chunkText "Hello world".data 1000 200).length 3] ∧
      (processDocumentServe procEnvChunkFail).insertedChunks.length <
        (chunkText "Hello world".data 1000 200).length :=
  process_counts_attempted procEnvChunkFail "d1".data docW 3 "Hello world".data
    "key".data "network error".data 0 rfl rfl rfl rfl (by decide) rfl rfl (by decide) rfl

/-! ## Claim C3 (confirmed): the retrieval contract of `match_documents` -/

theorem mem_sqlJoin {db : RagDB} {p : ChunkRow × DocRow} (hp : p ∈ sqlJoin db) :
    p.1 ∈ db.chunks ∧ p.2 ∈ db.docs ∧ p.1.document_id = p.2.id := by
  have main : ∀ (cs : List ChunkRow) (q : ChunkRow × DocRow),
      q ∈ cs.foldr
        (fun c acc =>
          ((db.docs.filter fun d => decide (c.document_id = d.id)).map fun d => (c, d)) ++ acc)
        [] →
      q.1 ∈ cs ∧ q.2 ∈ db.docs ∧ q.1.document_id = q.2.id := by
    intro cs
    induction cs with
    | nil => intro q hq; cases hq
    | cons c cs ih =>
      intro q hq
      rcases List.mem_append.mp hq with hl | hr
      · obtain ⟨d, hd, rfl⟩ := List.mem_map.mp hl
        obtain ⟨hdocs, hcond⟩ := List.mem_filter.mp hd
        exact ⟨List.mem_cons_self c cs, hdocs, of_decide_eq_true hcond⟩
      · obtain ⟨h1, h2, h3⟩ := ih q hr
        exact ⟨List.mem_cons_of_mem c h1, h2, h3⟩
  exact main db.chunks p hp

theorem mem_matchPairs {db : RagDB} {threshold : ℚ} {limit : Nat} {uid : Option Nat}
    {p : ChunkRow × DocRow} (hp : p ∈ matchPairs db threshold limit uid) :
    p ∈ sqlJoin db ∧ matchCond uid threshold p = true := by
  have hs : p ∈ ((sqlJoin db).filter (matchCond uid threshold)).insertionSort distLE :=
    List.mem_of_mem_take hp
  have hf : p ∈ (sqlJoin db).filter (matchCond uid threshold) :=
    (List.perm_insertionSort distLE _).mem_iff.mp hs
  exact ⟨(List.mem_filter.mp hf).1, (List.mem_filter.mp hf).2⟩

/-- C3: for every database state, distance assignment (standing for an
arbitrary query embedding), owner, threshold and limit — under the
schema's denormalization invariant that each chunk row carries its
document's owner — `match_documents` returns rows sorted by descending
similarity, at most `limit` of them, each with similarity strictly above
the threshold; and every returned chunk-document pair is owned by the
requesting user and belongs to a `completed` document. -/
theorem match_documents_contract (db : RagDB) (threshold : ℚ) (limit : Nat) (uid : Nat)
    (hden : ∀ c ∈ db.chunks, ∀ d ∈ db.docs, c.document_id = d.id → c.user_id = d.user_id) :
    List.Pairwise (fun a b : MatchRow => b.similarity ≤ a.similarity)
        (match_documents db threshold limit (some uid)) ∧
      (match_documents db threshold limit (some uid)).length ≤ limit ∧
      (∀ r ∈ match_documents db threshold limit (some uid), threshold < r.similarity) ∧
      (∀ p ∈ matchPairs db threshold limit (some uid),
        p.1.user_id = uid ∧ p.2.user_id = uid ∧ p.2.status = completedStatus) := by
  refine ⟨?_, ?_, ?_, ?_⟩
  · rw [match_documents, List.pairwise_map]
    have hsorted :
        List.Pairwise distLE (((sqlJoin db).filter
          (matchCond (some uid) threshold)).insertionSort distLE) :=
      List.sorted_insertionSort distLE _
    have htake : List.Pairwise distLE (matchPairs db threshold limit (some uid)) :=
      List.Pairwise.sublist (List.take_sublist _ _) hsorted
    exact htake.imp fun h => by
      simpa [toMatchRow] using sub_le_sub_left h 1
  · rw [match_documents, List.length_map]
    exact List.length_take_le _ _
  · intro r hr
    obtain ⟨p, hp, rfl⟩ := List.mem_map.mp hr
    have hc := (mem_matchPairs hp).2
    simp only [matchCond, Bool.and_eq_true, decide_eq_true_eq] at hc
    simpa [toMatchRow] using hc.2
  · intro p hp
    obtain ⟨hjoin, hc⟩ := mem_matchPairs hp
    obtain ⟨hchunk, hdoc, hid⟩ := mem_sqlJoin hjoin
    simp only [matchCond, Bool.and_eq_true, decide_eq_true_eq] at hc
    exact ⟨(hden p.1 hchunk p.2 hdoc hid).trans hc.1.1, hc.1.1, hc.1.2⟩

/-- C3 witness: the sortedness and length bound on a concrete
one-document, one-chunk database, with the denormalization hypothesis
discharged by computation. -/
theorem match_documents_witness :
    List.Pairwise (fun a b : MatchRow => b.similarity ≤ a.similarity)
        (match_documents dbW (1 / 2) 5 (some 7)) ∧
      (match_documents dbW (1 / 2) 5 (some 7)).length ≤ 5 :=
  ⟨(match_documents_contract dbW (1 / 2) 5 7 (by decide)).1,
    (match_documents_contract dbW (1 / 2) 5 7 (by decide)).2.1⟩

/-! ## Claim C4 (confirmed): minimum chunk length -/

/-- C4: every chunk `chunkText` outputs has content of at least 50
characters (the filter keeps only lengths strictly above 50), except that
a cleaned text that already fits within `maxSize` is returned as the
single whole-text chunk even when shorter; and for every non-empty input
whose cleaned text fits within `maxSize`, that single chunk is exactly
what is returned. -/
theorem chunk_min_length (t : List Char) (m o : Nat) :
    (∀ c ∈ chunkText t m o, 50 ≤ c.content.length ∨
      chunkText t m o = [⟨cleanText t, 0, (cleanText t).length⟩]) ∧
    (t.length ≠ 0 → (cleanText t).length ≤ m →
      chunkText t m o = [⟨cleanText t, 0, (cleanText t).length⟩]) := by
  by_cases h0 : t.length = 0
  · refine ⟨?_, fun h => absurd h0 h⟩
    intro c hc
    rw [chunkText, if_pos h0] at hc
    cases hc
  · by_cases h1 : (cleanText t).length ≤ m
    · have hout : chunkText t m o = [⟨cleanText t, 0, (cleanText t).length⟩] := by
        rw [chunkText, if_neg h0, if_pos h1]
      exact ⟨fun c _ => Or.inr hout, fun _ _ => hout⟩
    · refine ⟨?_, fun _ h => absurd h h1⟩
      intro c hc
      rw [chunkText, if_neg h0, if_neg h1] at hc
      obtain ⟨raw, hraw, rfl⟩ := List.mem_map.mp hc
      have hlen := of_decide_eq_true (List.mem_filter.mp hraw).2
      exact Or.inl (Nat.le_of_lt hlen)

/-- C4 witness: a 3-character input is below the 50-character minimum yet
is returned as the single whole-text chunk. -/
theorem chunk_min_length_witness :
    chunkText "Hi.".data 1000 200 = [⟨cleanText "Hi.".data, 0, (cleanText "Hi.".data).length⟩] :=
  (chunk_min_length "Hi.".data 1000 200).2 (by decide) (by decide)

/-! ## Claim C5: the overlap property of consecutive chunks

Helper lemmas about `ltrim`, `takeRight` and the accumulation loop. -/

theorem ltrim_ltrim (l : List Char) : ltrim (ltrim l) = ltrim l := by
  induction l with
  | nil => rfl
  | cons c rest ih =>
    by_cases h : isWsChar c = true
    · simpa [ltrim, List.dropWhile_cons, h] using ih
    · simp [ltrim, List.dropWhile_cons, h]

theorem ltrim_append_of_ne_nil {l : List Char} (h : ltrim l ≠ []) (r : List Char) :
    ltrim (l ++ r) = ltrim l ++ r := by
  induction l with
  | nil => exact absurd rfl h
  | cons c rest ih =>
    by_cases hc : isWsChar c = true
    · rw [ltrim, List.dropWhile_cons_of_pos hc] at h
      simpa [ltrim, List.dropWhile_cons, hc] using ih h
    · simp [ltrim, List.dropWhile_cons, hc]

theorem ltrim_append_ws {w : List Char} (hw : ∀ c ∈ w, isWsChar c = true) (r : List Char) :
    ltrim (w ++ r) = ltrim r := by
  induction w with
  | nil => rfl
  | cons c rest ih =>
    have hc : isWsChar c = true := hw c (List.mem_cons_self c rest)
    simpa [ltrim, List.dropWhile_cons, hc] using
      ih fun d hd => hw d (List.mem_cons_of_mem c hd)

theorem head_ltrim_not_ws (l : List Char) : ∀ c ∈ (ltrim l).head?, isWsChar c = false := by
  intro c hc
  have hsome : (List.dropWhile (fun c => isWsChar c) l).head? = some c := hc
  have := List.head?_dropWhile_not (fun c => isWsChar c) l
  rw [hsome] at this
  exact this

theorem getLast_rtrim_not_ws (l : List Char) :
    ∀ c ∈ (rtrim l).getLast?, isWsChar c = false := by
  intro c hc
  rw [rtrim, List.getLast?_reverse] at hc
  exact head_ltrim_not_ws l.reverse c hc

theorem getLast_suffix_eq {l₂ l₁ : List Char} (h : l₂ <:+ l₁) (hne : l₂ ≠ []) :
    l₁.getLast? = l₂.getLast? := by
  obtain ⟨t, rfl⟩ := h
  exact List.getLast?_append_of_ne_nil t hne

theorem getLast_trim_not_ws (l : List Char) :
    ∀ c ∈ (trim l).getLast?, isWsChar c = false := by
  intro c hc
  by_cases hne : trim l = []
  · rw [hne] at hc; cases hc
  · have hsuf : trim l <:+ rtrim l := List.dropWhile_suffix _
    have := getLast_suffix_eq hsuf hne
    exact getLast_rtrim_not_ws l c (this ▸ hc)

theorem rtrim_eq_self {l : List Char} (h : ∀ c ∈ l.getLast?, isWsChar c = false) :
    rtrim l = l := by
  rw [rtrim]
  cases hrev : l.reverse with
  | nil =>
    have hl : l = [] := by simpa using congrArg List.reverse hrev
    simp [hl, ltrim]
  | cons c m =>
    have hc : isWsChar c = false := by
      apply h
      rw [← List.head?_reverse, hrev]
      rfl
    rw [ltrim, List.dropWhile_cons_of_neg (by simp [hc]), ← hrev, List.reverse_reverse]

theorem trim_eq_ltrim {l : List Char} (h : ∀ c ∈ l.getLast?, isWsChar c = false) :
    trim l = ltrim l := by
  rw [trim, rtrim_eq_self h]

theorem takeRight_append_of_le {b : List Char} {n : Nat} (h : n ≤ b.length)
    (a : List Char) : takeRight n (a ++ b) = takeRight n b := by
  rw [takeRight, takeRight, List.length_append,
    show a.length + b.length - n = a.length + (b.length - n) by omega,
    List.drop_append]

theorem takeRight_all {l : List Char} {n : Nat} (h : l.length ≤ n) : takeRight n l = l := by
  rw [takeRight, show l.length - n = 0 by omega, List.drop_zero]

theorem takeRight_append_of_gt {r : List Char} {n : Nat} (h : r.length < n)
    (w : List Char) : takeRight n (w ++ r) = takeRight (n - r.length) w ++ r := by
  rw [takeRight, takeRight, List.length_append,
    show w.length + r.length - n = w.length - (n - r.length) by omega]
  exact List.drop_append_of_le_length (by omega)

theorem ltrim_jsSliceNeg_ltrim (acc : List Char) (n : Nat) :
    ltrim (jsSliceNeg (ltrim acc) n) = ltrim (jsSliceNeg acc n) := by
  by_cases h0 : n = 0
  · simp [jsSliceNeg, h0, ltrim_ltrim]
  · rw [jsSliceNeg, if_neg h0, jsSliceNeg, if_neg h0]
    have hsplit : acc.takeWhile (fun c => isWsChar c) ++ ltrim acc = acc :=
      List.takeWhile_append_dropWhile _ _
    by_cases hle : n ≤ (ltrim acc).length
    · conv_rhs => rw [← hsplit]
      rw [takeRight_append_of_le hle]
    · have h1 : takeRight n (ltrim acc) = ltrim acc := takeRight_all (by omega)
      have hw :
          ∀ c ∈ takeRight (n - (ltrim acc).length) (acc.takeWhile fun c => isWsChar c),
            isWsChar c = true := by
        intro c hc
        rw [takeRight] at hc
        exact List.mem_takeWhile_imp (List.drop_subset _ _ hc)
      rw [h1, ltrim_ltrim]
      conv_rhs =>
        rw [← hsplit, takeRight_append_of_gt (show (ltrim acc).length < n by omega)]
      rw [ltrim_append_ws hw, ltrim_ltrim]

theorem chunkLoop_head_prefix (m o : Nat) (sents : List (List Char)) :
    ∀ (current : List Char) (start : Nat),
      (∀ s ∈ sents, trim s ≠ []) →
      (∀ c ∈ current.getLast?, isWsChar c = false) →
      ∀ (r : RawChunk) (rest : List RawChunk),
        chunkLoop m o sents current start = r :: rest → ltrim current <+: r.content := by
  induction sents with
  | nil =>
    intro current start _ hend r rest heq
    rw [chunkLoop] at heq
    by_cases hpos : 0 < (trim current).length
    · rw [if_pos hpos] at heq
      have : r.content = trim current := by
        cases heq
        rfl
      rw [this, trim_eq_ltrim hend]
    · rw [if_neg hpos] at heq
      cases heq
  | cons s rest ih =>
    intro current start hs hend r rest' heq
    rw [chunkLoop] at heq
    by_cases hsplit :
        (current ++ (if current.length ≠ 0 then [' '] else []) ++ trim s).length > m ∧
          current.length ≠ 0
    · rw [if_pos hsplit] at heq
      have : r.content = trim current := by
        cases heq
        rfl
      rw [this, trim_eq_ltrim hend]
    · rw [if_neg hsplit] at heq
      have hsne : trim s ≠ [] := hs s (List.mem_cons_self s rest)
      have hout :
          ∀ c ∈ (current ++ (if current.length ≠ 0 then [' '] else []) ++ trim s).getLast?,
            isWsChar c = false := by
        intro c hc
        rw [List.append_assoc,
          List.getLast?_append_of_ne_nil _ (by simp [hsne]),
          List.getLast?_append_of_ne_nil _ hsne] at hc
        exact getLast_trim_not_ws s c hc
      have hpre := ih _ start (fun x hx => hs x (List.mem_cons_of_mem s hx)) hout r rest' heq
      refine List.IsPrefix.trans ?_ hpre
      by_cases hcur : ltrim current = []
      · rw [hcur]; exact List.nil_prefix
      · rw [List.append_assoc, ltrim_append_of_ne_nil hcur]
        exact List.prefix_append _ _

theorem chunkLoop_chain (m o : Nat) (sents : List (List Char)) :
    ∀ (current : List Char) (start : Nat),
      (∀ s ∈ sents, trim s ≠ []) →
      (∀ c ∈ current.getLast?, isWsChar c = false) →
      List.Chain'
        (fun a b : RawChunk =>
          a.splitClosed = true → ltrim (jsSliceNeg a.content o) <+: b.content)
        (chunkLoop m o sents current start) := by
  induction sents with
  | nil =>
    intro current start _ _
    rw [chunkLoop]
    by_cases hpos : 0 < (trim current).length
    · rw [if_pos hpos]; exact List.chain'_singleton _
    · rw [if_neg hpos]; exact List.chain'_nil
  | cons s rest ih =>
    intro current start hs hend
    rw [chunkLoop]
    have hsne : trim s ≠ [] := hs s (List.mem_cons_self s rest)
    have hstail : ∀ x ∈ rest, trim x ≠ [] := fun x hx => hs x (List.mem_cons_of_mem s hx)
    by_cases hsplit :
        (current ++ (if current.length ≠ 0 then [' '] else []) ++ trim s).length > m ∧
          current.length ≠ 0
    · rw [if_pos hsplit]
      have hend' :
          ∀ c ∈ (jsSliceNeg current o ++ [' '] ++ trim s).getLast?, isWsChar c = false := by
        intro c hc
        rw [List.append_assoc, List.getLast?_append_of_ne_nil _ (by simp [hsne]),
          List.getLast?_append_of_ne_nil _ hsne] at hc
        exact getLast_trim_not_ws s c hc
      rw [List.chain'_cons']
      refine ⟨?_, ih _ _ hstail hend'⟩
      intro y hy _
      cases hL : chunkLoop m o rest (jsSliceNeg current o ++ [' '] ++ trim s)
          (start + current.length - o) with
      | nil => rw [hL] at hy; cases hy
      | cons r rest' =>
        rw [hL] at hy
        have hy' : y = r := by
          cases hy
          rfl
        rw [hy']
        have hpre := chunkLoop_head_prefix m o rest _ _ hstail hend' r rest' hL
        refine List.IsPrefix.trans ?_ hpre
        show ltrim (jsSliceNeg (trim current) o) <+: ltrim (jsSliceNeg current o ++ [' '] ++ trim s)
        rw [trim_eq_ltrim hend, ltrim_jsSliceNeg_ltrim]
        by_cases hseed : ltrim (jsSliceNeg current o) = []
        · rw [hseed]; exact List.nil_prefix
        · rw [List.append_assoc, ltrim_append_of_ne_nil hseed]
          exact List.prefix_append _ _
    · rw [if_neg hsplit]
      have hout :
          ∀ c ∈ (current ++ (if current.length ≠ 0 then [' '] else []) ++ trim s).getLast?,
            isWsChar c = false := by
        intro c hc
        rw [List.append_assoc, List.getLast?_append_of_ne_nil _ (by simp [hsne]),
          List.getLast?_append_of_ne_nil _ hsne] at hc
        exact getLast_trim_not_ws s c hc
      exact ih _ _ hstail hout

/-- C5, counterexample: in the output of `chunkText Tce 70 10` the first
chunk is closed by a size-triggered split (its ghost flag is `true` and
the filter drops nothing), yet its last `overlap = 10` characters —
`" bbbbbbbb."`, which begin with a space — are NOT a prefix of the second
chunk's content: the seed's leading space is removed by the `.trim()`
applied when the second chunk is pushed. -/
theorem chunk_overlap_counterexample :
    ((chunkBody Tce 70 10).map fun c => c.splitClosed) = [true, false] ∧
      chunkText Tce 70 10 = (chunkBody Tce 70 10).map RawChunk.toChunk ∧
      (chunkText Tce 70 10).length = 2 ∧
      ¬ takeRight 10 ((chunkText Tce 70 10).getD 0 ⟨[], 0, 0⟩).content <+:
          ((chunkText Tce 70 10).getD 1 ⟨[], 0, 0⟩).content := by
  exact ⟨by decide, by decide, by decide, by decide⟩

/-- C5, amended: in the raw chunk sequence built by the accumulation loop
(before the minimum-length filter), whenever chunk `i` was closed by a
size-triggered split, the seed — the last `overlap` characters of chunk
`i`'s content (the whole content when `overlap = 0`, matching
`slice(-0)`) — is a prefix of chunk `i + 1`'s content AFTER the seed's
leading whitespace is removed; the leading whitespace is lost to the
`.trim()` applied when chunk `i + 1` is pushed. -/
theorem chunk_overlap_amended (t : List Char) (m o : Nat) :
    List.Chain'
      (fun a b : RawChunk =>
        a.splitClosed = true → ltrim (jsSliceNeg a.content o) <+: b.content)
      (chunkBody t m o) := by
  apply chunkLoop_chain
  · intro s hs
    exact List.ne_nil_of_length_pos (of_decide_eq_true (List.mem_filter.mp hs).2)
  · intro c hc
    simp at hc

end AskGemini
